import Mathlib

/-!
Verification of the wled-christmas-tree animation core.

The Python source is shallowly embedded: Python `float` arithmetic is
modelled by exact rationals (ℚ), Python `int` by ℤ, and NumPy `uint8`
channel storage by ℕ with an explicit mod-256 cast.  Fallible code is
modelled with `Option`/`Except`.  `Rat.floor` is used inside executable
definitions (it reduces in the kernel); the bridge lemma `ratFloor_eq`
relates it to `Int.floor` for the proofs.
-/

namespace WledTree

/-- Python `int()` applied to a rational: truncation toward zero. -/
def pyInt (q : ℚ) : ℤ := if q < 0 then -((-q).floor) else q.floor

/-- Python `x % 1.0` for a real (rational) x: `x - ⌊x⌋`, always in `[0,1)`. -/
def pyMod1 (x : ℚ) : ℚ := x - (x.floor : ℚ)

/-- An RGB triple as produced by the pure color helpers (Python ints). -/
abbrev RGBz := ℤ × ℤ × ℤ

/-- An RGB triple as stored in the NumPy uint8 pixel buffer. -/
abbrev RGBn := ℕ × ℕ × ℕ

lemma ratFloor_eq (q : ℚ) : q.floor = ⌊q⌋ := by
  rw [Rat.floor_def', Rat.floor_def]

lemma pyInt_intCast (n : ℤ) : pyInt (n : ℚ) = n := by
  unfold pyInt
  rw [ratFloor_eq, ratFloor_eq]
  split
  · rw [show -((n : ℚ)) = ((-n : ℤ) : ℚ) by push_cast; ring, Int.floor_intCast]; omega
  · exact Int.floor_intCast n

/-- Embedding of `utils/color_utils.py`, `wheel(pos)`:
position inverted, then a 3-segment piecewise-linear ramp with
boundaries at 85 and 170.  Python ints do not wrap, hence domain ℤ. -/
def wheel (pos : ℤ) : RGBz :=
  let p := 255 - pos
  if p < 85 then (255 - p * 3, 0, p * 3)
  else if p < 170 then (0, (p - 85) * 3, 255 - (p - 85) * 3)
  else ((p - 170) * 3, 255 - (p - 170) * 3, 0)

/-- Embedding of `utils/color_utils.py`, `blend_colors(color1, color2, t)`:
the blend parameter is clamped to `[0,1]`, each channel is linearly
interpolated and truncated to an integer via `int()`. -/
def blend_colors (c1 c2 : RGBz) (t : ℚ) : RGBz :=
  let u := max 0 (min 1 t)
  (pyInt ((c1.1 : ℚ) * (1 - u) + (c2.1 : ℚ) * u),
   pyInt ((c1.2.1 : ℚ) * (1 - u) + (c2.2.1 : ℚ) * u),
   pyInt ((c1.2.2 : ℚ) * (1 - u) + (c2.2.2 : ℚ) * u))

lemma blend_colors_same_channel (a : ℤ) (u : ℚ) :
    pyInt ((a : ℚ) * (1 - u) + (a : ℚ) * u) = a := by
  rw [show (a : ℚ) * (1 - u) + (a : ℚ) * u = (a : ℚ) by ring, pyInt_intCast]

/-- Embedding of `effects/height_gradient.py`,
`HeightGradientEffect._interpolate_colors(position)`: single color
short-circuits; otherwise the segment index is `int(position/segSize)`
clamped above by `len-2`, and the two segment endpoints are blended by
the intra-segment position.  (Python negative-list-index access cannot
occur for the in-range positions produced by `update`; `getD` models
successful indexing.) -/
def interpolate_colors (colors : List RGBz) (p : ℚ) : RGBz :=
  if colors.length = 1 then colors.getD 0 (0, 0, 0)
  else
    let segSize : ℚ := 1 / ((colors.length : ℚ) - 1)
    let idx := min (pyInt (p / segSize)) ((colors.length : ℤ) - 2)
    blend_colors (colors.getD idx.toNat (0, 0, 0)) (colors.getD (idx.toNat + 1) (0, 0, 0))
      ((p - (idx : ℚ) * segSize) / segSize)

/-- Embedding of the per-LED body of `HeightGradientEffect.update` in the
custom-colors branch: the LED's normalized height plus the animation
time offset is reduced by `% 1.0` and then interpolated. -/
def height_gradient_pixel (colors : List RGBz) (timeOffset height : ℚ) : RGBz :=
  interpolate_colors colors (pyMod1 (height + timeOffset))

/-- Claim C1 (counterexample): with `colors=[(0,0,255),(255,0,0)]` and time
offset 0, the update step at normalized height 1.0 produces `(0,0,255)`,
not `(255,0,0)` as the claim states: `update` reduces the height by
`% 1.0`, which maps 1.0 to 0.0 before interpolation. -/
theorem height_gradient_top_led_cex :
    height_gradient_pixel [(0,0,255),(255,0,0)] 0 1 = (0,0,255) ∧
    ((0,0,255) : RGBz) ≠ (255,0,0) := by
  constructor
  · norm_num [height_gradient_pixel, interpolate_colors, blend_colors, pyMod1, pyInt,
      ratFloor_eq]
  · decide

/-- Claim C1 (amended): for `HeightGradientEffect` with
`colors=[(0,0,255),(255,0,0)]` at time offset 0, the update step yields
`(0,0,255)` at normalized height 0.0, `(127,0,127)` at height 0.5
(integer-truncated midpoint), and `(0,0,255)` (not `(255,0,0)`) at
height 1.0 because the update wraps the height by `% 1.0`; the
interpolation routine itself evaluated at position 1.0 does yield
`(255,0,0)`. -/
theorem height_gradient_scenario :
    height_gradient_pixel [(0,0,255),(255,0,0)] 0 0 = (0,0,255) ∧
    height_gradient_pixel [(0,0,255),(255,0,0)] 0 (1/2) = (127,0,127) ∧
    height_gradient_pixel [(0,0,255),(255,0,0)] 0 1 = (0,0,255) ∧
    interpolate_colors [(0,0,255),(255,0,0)] 1 = (255,0,0) := by
  norm_num [height_gradient_pixel, interpolate_colors, blend_colors, pyMod1, pyInt,
    ratFloor_eq]

/-- Claim C3 (counterexample): `wheel` is not periodic with period 256 over
the Python integers: at position 0, `wheel (0 + 256) = (258, 0, -3)` while
`wheel 0 = (255, 0, 0)`, because the code never reduces its argument
modulo 256. -/
theorem wheel_not_periodic_cex : wheel (0 + 256) ≠ wheel 0 := by decide

/-- Claim C3 (amended): `wheel` is periodic with period 256 once its
argument is reduced modulo 256, which is how the rainbow effect invokes
it (`wheel(int(...) % 256)`): for every integer `pos`,
`wheel ((pos + 256) % 256) = wheel (pos % 256)`.  On unreduced arguments
the raw function differs, as the counterexample shows. -/
theorem wheel_periodic_mod (pos : ℤ) : wheel ((pos + 256) % 256) = wheel (pos % 256) := by
  have h : (pos + 256) % 256 = pos % 256 := by omega
  rw [h]

/-- Claim C4: blending a color with itself is the identity for every blend
parameter, and blend parameters 0 and 1 return the first and second color
respectively (`blend_colors` of `utils/color_utils.py`). -/
theorem blend_colors_endpoints (c c1 c2 : RGBz) (t : ℚ) :
    blend_colors c c t = c ∧ blend_colors c1 c2 0 = c1 ∧ blend_colors c1 c2 1 = c2 := by
  obtain ⟨a1, a2, a3⟩ := c
  obtain ⟨b1, b2, b3⟩ := c1
  obtain ⟨d1, d2, d3⟩ := c2
  refine ⟨?_, ?_, ?_⟩
  · simp [blend_colors, blend_colors_same_channel]
  · have hu : max (0:ℚ) (min 1 0) = 0 := by norm_num
    simp [blend_colors, hu, pyInt_intCast]
  · have hu : max (0:ℚ) (min 1 1) = 1 := by norm_num
    simp [blend_colors, hu, pyInt_intCast]

/-! ## Spatial model (`src/tree_model.py`) -/

/-- A 3D LED coordinate. -/
abbrev Coord := ℚ × ℚ × ℚ

/-- Running minimum of a list of rationals with initial value, as NumPy's
`np.min` computes it over a nonempty axis slice. -/
def listMin (a : ℚ) (l : List ℚ) : ℚ := l.foldl min a

/-- Running maximum of a list of rationals with initial value. -/
def listMax (a : ℚ) (l : List ℚ) : ℚ := l.foldl max a

lemma listMin_le_init (a : ℚ) (l : List ℚ) : listMin a l ≤ a := by
  induction l generalizing a with
  | nil => simp [listMin]
  | cons b t ih =>
    calc listMin a (b :: t) = listMin (min a b) t := rfl
    _ ≤ min a b := ih (min a b)
    _ ≤ a := min_le_left a b

lemma listMin_le_mem (a : ℚ) (l : List ℚ) (x : ℚ) (hx : x ∈ l) : listMin a l ≤ x := by
  induction l generalizing a with
  | nil => cases hx
  | cons b t ih =>
    rcases List.mem_cons.1 hx with h | h
    · subst h
      calc listMin a (x :: t) = listMin (min a x) t := rfl
      _ ≤ min a x := listMin_le_init _ _
      _ ≤ x := min_le_right a x
    · exact ih (min a b) h

lemma listMin_eq_init_or_mem (a : ℚ) (l : List ℚ) : listMin a l = a ∨ listMin a l ∈ l := by
  induction l generalizing a with
  | nil => left; rfl
  | cons b t ih =>
    rcases ih (min a b) with h | h
    · rcases min_choice a b with hc | hc
      · left; rw [show listMin a (b :: t) = listMin (min a b) t from rfl, h, hc]
      · right
        rw [show listMin a (b :: t) = listMin (min a b) t from rfl, h, hc]
        exact List.mem_cons_self b t
    · right; exact List.mem_cons_of_mem b h

lemma listMax_init_le (a : ℚ) (l : List ℚ) : a ≤ listMax a l := by
  induction l generalizing a with
  | nil => simp [listMax]
  | cons b t ih =>
    calc a ≤ max a b := le_max_left a b
    _ ≤ listMax (max a b) t := ih (max a b)
    _ = listMax a (b :: t) := rfl

lemma listMax_mem_le (a : ℚ) (l : List ℚ) (x : ℚ) (hx : x ∈ l) : x ≤ listMax a l := by
  induction l generalizing a with
  | nil => cases hx
  | cons b t ih =>
    rcases List.mem_cons.1 hx with h | h
    · subst h
      calc x ≤ max a x := le_max_right a x
      _ ≤ listMax (max a x) t := listMax_init_le _ _
      _ = listMax a (x :: t) := rfl
    · exact ih (max a b) h

lemma listMax_eq_init_or_mem (a : ℚ) (l : List ℚ) : listMax a l = a ∨ listMax a l ∈ l := by
  induction l generalizing a with
  | nil => left; rfl
  | cons b t ih =>
    rcases ih (max a b) with h | h
    · rcases max_choice a b with hc | hc
      · left; rw [show listMax a (b :: t) = listMax (max a b) t from rfl, h, hc]
      · right
        rw [show listMax a (b :: t) = listMax (max a b) t from rfl, h, hc]
        exact List.mem_cons_self b t
    · right; exact List.mem_cons_of_mem b h

/-- Embedding of `TreeModel._calculate_bounds`: per-axis `(min, max)` over
all coordinates.  NumPy `min`/`max` of an empty array raises, hence the
empty case is `none` (the code never reaches it on the paths modelled
here). -/
def calculate_bounds (coords : List Coord) :
    Option ((ℚ × ℚ) × (ℚ × ℚ) × (ℚ × ℚ)) :=
  match coords with
  | [] => none
  | c :: cs =>
    some ((listMin c.1 (cs.map (fun p => p.1)), listMax c.1 (cs.map (fun p => p.1))),
          (listMin c.2.1 (cs.map (fun p => p.2.1)), listMax c.2.1 (cs.map (fun p => p.2.1))),
          (listMin c.2.2 (cs.map (fun p => p.2.2)), listMax c.2.2 (cs.map (fun p => p.2.2))))

/-- Embedding of the `np.mean(coordinates, axis=0)` part of
`TreeModel._calculate_bounds`: the per-axis mean of all coordinates. -/
def calculate_center (coords : List Coord) : Option Coord :=
  match coords with
  | [] => none
  | _ :: _ =>
    some ((coords.map (fun p => p.1)).sum / (coords.length : ℚ),
          (coords.map (fun p => p.2.1)).sum / (coords.length : ℚ),
          (coords.map (fun p => p.2.2)).sum / (coords.length : ℚ))

/-- Embedding of the `TreeModel` state (`src/tree_model.py`): LED count,
coordinate list, cached bounds and center. -/
structure TreeModel where
  led_count : ℕ
  coordinates : List Coord
  bounds : Option ((ℚ × ℚ) × (ℚ × ℚ) × (ℚ × ℚ))
  center : Option Coord
deriving DecidableEq

/-- Embedding of the success path of `TreeModel.load_from_csv` after row
parsing (lines 66-75): adopt the loaded coordinates, correct `led_count`
on a count mismatch, recompute bounds and center. -/
def load_points (m : TreeModel) (coords : List Coord) : TreeModel :=
  { m with
    coordinates := coords
    led_count := if coords.length ≠ m.led_count then coords.length else m.led_count
    bounds := calculate_bounds coords
    center := calculate_center coords }

/-- NumPy `np.linspace(0, 1, n)`: n evenly spaced samples with both
endpoints included; a single sample is 0. -/
def linspace01 (n : ℕ) : List ℚ :=
  (List.range n).map (fun (i : ℕ) => if n ≤ 1 then (0 : ℚ) else (i : ℚ) / ((n : ℚ) - 1))

/-- Embedding of `TreeModel._create_linear_fallback`: `led_count` points on
a vertical line with z running from 0 to 1. -/
def create_linear_fallback (m : TreeModel) : TreeModel :=
  let coords := (linspace01 m.led_count).map (fun z => ((0 : ℚ), (0 : ℚ), z))
  { m with coordinates := coords, bounds := calculate_bounds coords,
           center := calculate_center coords }

/-- Claim C7: after construction from either coordinate source,
`len(coordinates) == led_count`; when the loaded count differs from the
expected one, `led_count` is corrected to the loaded count and the
coordinate list is stored verbatim (neither truncated nor padded). -/
theorem coordinates_length_invariant (m : TreeModel) (coords : List Coord) :
    ((load_points m coords).coordinates.length = (load_points m coords).led_count
      ∧ (load_points m coords).coordinates = coords)
    ∧ (create_linear_fallback m).coordinates.length = (create_linear_fallback m).led_count
    ∧ (coords.length ≠ m.led_count → (load_points m coords).led_count = coords.length) := by
  refine ⟨⟨?_, rfl⟩, ?_, ?_⟩
  · simp only [load_points]
    split <;> omega
  · show ((linspace01 m.led_count).map _).length = _
    unfold linspace01
    rw [List.length_map, List.length_map, List.length_range]
    rfl
  · intro h
    simp only [load_points]
    split <;> omega

/-- A model declared with 3 LEDs but no coordinates, used to instantiate
the count-mismatch branch. -/
def mC7 : TreeModel := { led_count := 3, coordinates := [], bounds := none, center := none }

/-- Witness for claim C7: loading a single point into a model that expected
3 LEDs corrects `led_count` to 1. -/
theorem coordinates_length_invariant_witness :
    (load_points mC7 [((0:ℚ), (0:ℚ), (0:ℚ))]).led_count = 1 :=
  (coordinates_length_invariant mC7 [(0, 0, 0)]).2.2 (by simp [mC7])

/-- Embedding of `TreeModel.get_height_normalized`: z mapped to `[0,1]`
through the cached z-bounds, or an all-zero vector of length `led_count`
when the z-bounds are degenerate (`z_max` not greater than `z_min`). -/
def get_height_normalized (m : TreeModel) : List ℚ :=
  match m.bounds with
  | none => []
  | some b =>
    if b.2.2.1 < b.2.2.2 then
      m.coordinates.map (fun c => (c.2.2 - b.2.2.1) / (b.2.2.2 - b.2.2.1))
    else List.replicate m.led_count 0

/-- Claim C8: for a model whose cached bounds are those computed from its
(nonempty) coordinates, every normalized height lies in `[0,1]`, and with
non-degenerate z-bounds the values 0 and 1 are both attained (hence the
minimum over all LEDs is 0 and the maximum is 1); with degenerate z-bounds
every LED's normalized height is 0. -/
theorem height_normalized_bounds (m : TreeModel)
    (b : (ℚ × ℚ) × (ℚ × ℚ) × (ℚ × ℚ))
    (hb : m.bounds = some b) (hcb : calculate_bounds m.coordinates = some b) :
    (b.2.2.1 < b.2.2.2 →
       (∀ h ∈ get_height_normalized m, 0 ≤ h ∧ h ≤ 1)
       ∧ 0 ∈ get_height_normalized m ∧ 1 ∈ get_height_normalized m)
    ∧ (¬ b.2.2.1 < b.2.2.2 → ∀ h ∈ get_height_normalized m, h = 0) := by
  cases hm : m.coordinates with
  | nil =>
    rw [hm] at hcb
    simp [calculate_bounds] at hcb
  | cons c cs =>
    rw [hm] at hcb
    have hT : calculate_bounds (c :: cs) = some b := hcb
    simp only [calculate_bounds, Option.some.injEq] at hT
    subst hT
    set zs := cs.map (fun p => p.2.2) with hzs
    set zmin := listMin c.2.2 zs with hzmin
    set zmax := listMax c.2.2 zs with hzmax
    have hlow : ∀ p ∈ c :: cs, zmin ≤ p.2.2 := by
      intro p hp
      rcases List.mem_cons.1 hp with h | h
      · rw [h]; exact listMin_le_init _ _
      · exact listMin_le_mem _ _ _ (List.mem_map_of_mem _ h)
    have hhigh : ∀ p ∈ c :: cs, p.2.2 ≤ zmax := by
      intro p hp
      rcases List.mem_cons.1 hp with h | h
      · rw [h]; exact listMax_init_le _ _
      · exact listMax_mem_le _ _ _ (List.mem_map_of_mem _ h)
    constructor
    · intro hlt
      have hlt' : zmin < zmax := hlt
      have hget : get_height_normalized m
          = (c :: cs).map (fun p => (p.2.2 - zmin) / (zmax - zmin)) := by
        unfold get_height_normalized
        rw [hb, hm]
        simp only [if_pos hlt']
      refine ⟨?_, ?_, ?_⟩
      · rw [hget]
        intro h hh
        rcases List.mem_map.1 hh with ⟨p, hp, rfl⟩
        constructor
        · exact div_nonneg (sub_nonneg.2 (hlow p hp)) (le_of_lt (sub_pos.2 hlt'))
        · rw [div_le_one (sub_pos.2 hlt')]
          have := hhigh p hp
          linarith
      · rw [hget]
        rcases listMin_eq_init_or_mem c.2.2 zs with h | h
        · refine List.mem_map.2 ⟨c, List.mem_cons_self c cs, ?_⟩
          rw [← hzmin] at h
          rw [h, sub_self, zero_div]
        · rcases List.mem_map.1 h with ⟨p, hp, hpz⟩
          refine List.mem_map.2 ⟨p, List.mem_cons_of_mem c hp, ?_⟩
          rw [← hzmin] at hpz
          rw [hpz, sub_self, zero_div]
      · rw [hget]
        rcases listMax_eq_init_or_mem c.2.2 zs with h | h
        · refine List.mem_map.2 ⟨c, List.mem_cons_self c cs, ?_⟩
          rw [← h, div_self (ne_of_gt (sub_pos.2 hlt'))]
        · rcases List.mem_map.1 h with ⟨p, hp, hpz⟩
          refine List.mem_map.2 ⟨p, List.mem_cons_of_mem c hp, ?_⟩
          rw [← hzmax] at hpz
          rw [hpz, div_self (ne_of_gt (sub_pos.2 hlt'))]
    · intro hnlt h hh
      unfold get_height_normalized at hh
      rw [hb] at hh
      simp only [if_neg hnlt] at hh
      exact List.eq_of_mem_replicate hh

/-- Coordinate list of the spec's 4-point scenario. -/
def coordsC8 : List Coord := [(0,0,0),(1,0,0),(0,1,0),(0,0,1)]

/-- The 4-point scenario model, with bounds and center cached exactly as
the constructor computes them. -/
def mC8 : TreeModel :=
  { led_count := 4, coordinates := coordsC8,
    bounds := calculate_bounds coordsC8, center := calculate_center coordsC8 }

/-- Witness for claim C8: on the concrete 4-point model the normalized
heights attain both 0 and 1. -/
theorem height_normalized_bounds_witness :
    (0:ℚ) ∈ get_height_normalized mC8 ∧ (1:ℚ) ∈ get_height_normalized mC8 := by
  have hcb : calculate_bounds mC8.coordinates
      = some (((0:ℚ),(1:ℚ)),((0:ℚ),(1:ℚ)),((0:ℚ),(1:ℚ))) := by
    norm_num [mC8, coordsC8, calculate_bounds, listMin, listMax]
  have h := height_normalized_bounds mC8 (((0:ℚ),(1:ℚ)),((0:ℚ),(1:ℚ)),((0:ℚ),(1:ℚ)))
    (by rw [show mC8.bounds = calculate_bounds mC8.coordinates from rfl, hcb]) hcb
  have h2 := h.1 (by norm_num)
  exact ⟨h2.2.1, h2.2.2⟩

/-! ## Effect lifecycle and frame buffer (`src/effect_base.py`) -/

/-- Embedding of the state owned by the `Effect` base class: LED count,
fps settings, the optional tree model, the timing fields and the uint8
pixel buffer. -/
structure EffectState where
  led_count : ℕ
  fps : ℕ
  frame_time : ℚ
  tree : Option TreeModel
  start_time : Option ℚ
  current_time : ℚ
  frame_count : ℕ
  running : Bool
  pixels : List RGBn
deriving DecidableEq

/-- Embedding of `Effect.__init__`: fresh timing state, not running, and a
zero-filled pixel buffer of `led_count` entries. -/
def Effect.base_init (led_count fps : ℕ) (tm : Option TreeModel) : EffectState :=
  { led_count := led_count, fps := fps, frame_time := 1 / (fps : ℚ), tree := tm,
    start_time := none, current_time := 0, frame_count := 0, running := false,
    pixels := List.replicate led_count (0, 0, 0) }

/-- Embedding of `Effect.tick`.  `upd` stands for the subclass `update`
override, which only rewrites the pixel buffer (every effect in the
repository writes pixels and effect-local attributes, never the base
timing fields); `now` is the wall-clock reading `time.time()` returns
during this tick.  When not running, the call returns the buffer
untouched; otherwise `dt = now - (start_time + current_time)` is added to
`current_time`, the frame counter is incremented and `update(dt)` runs on
the advanced state. -/
def Effect.tick (upd : ℚ → EffectState → List RGBn) (now : ℚ) (s : EffectState) :
    EffectState × List RGBn :=
  if s.running then
    let st := s.start_time.getD now
    let dt := now - (st + s.current_time)
    let s1 : EffectState :=
      { s with start_time := some st, current_time := s.current_time + dt,
               frame_count := s.frame_count + 1 }
    let s2 : EffectState := { s1 with pixels := upd dt s1 }
    (s2, s2.pixels)
  else (s, s.pixels)

/-- An `update` override that leaves the buffer alone, used to
instantiate theorems at concrete inputs. -/
def updNone : ℚ → EffectState → List RGBn := fun _ s => s.pixels

/-- Claim C5: when `running` is false, `tick` returns the pixel buffer
unchanged and leaves the whole state unchanged — no frame-count
increment, no time advance, no pixel write — for any subclass `update`
and any wall-clock reading. -/
theorem tick_noop_when_stopped (upd : ℚ → EffectState → List RGBn) (now : ℚ)
    (s : EffectState) (h : s.running = false) :
    Effect.tick upd now s = (s, s.pixels) := by
  simp [Effect.tick, h]

/-- Witness for claim C5: a freshly constructed (hence stopped) effect is
untouched by `tick`. -/
theorem tick_noop_witness :
    Effect.tick updNone 0 (Effect.base_init 2 30 none)
      = (Effect.base_init 2 30 none, (Effect.base_init 2 30 none).pixels) :=
  tick_noop_when_stopped updNone 0 (Effect.base_init 2 30 none) rfl

/-- A running effect whose logical start is wall-clock 0, used to
instantiate the timing theorems. -/
def sRun : EffectState :=
  { led_count := 1, fps := 30, frame_time := 1/30, tree := none, start_time := some 0,
    current_time := 0, frame_count := 0, running := true, pixels := [(0,0,0)] }

/-- Claim C2 (counterexample): with wall-clock readings 10 then 5 — a
backwards clock jump — elapsed time decreases from one tick to the next,
so the claim's guarantee for arbitrary (including decreasing) readings is
false: after the first tick `current_time = 10`, after the second it is
5. -/
theorem elapsed_time_cex :
    (Effect.tick updNone 5 (Effect.tick updNone 10 sRun).1).1.current_time
      < (Effect.tick updNone 10 sRun).1.current_time := by
  norm_num [Effect.tick, sRun, updNone]

/-- Claim C2 (amended): every running tick updates elapsed time by exactly
`delta = now - (logicalStart + elapsedTime)`; and across two consecutive
ticks whose wall-clock readings are non-decreasing, elapsed time never
decreases.  (For a strictly decreasing clock reading it does decrease, as
the counterexample shows, since after a tick `elapsedTime = now - start`.) -/
theorem elapsed_time_delta_monotone (upd1 upd2 : ℚ → EffectState → List RGBn)
    (now1 now2 : ℚ) (s : EffectState) (hrun : s.running = true) (hm : now1 ≤ now2) :
    (Effect.tick upd1 now1 s).1.current_time
        = s.current_time + (now1 - (s.start_time.getD now1 + s.current_time))
    ∧ (Effect.tick upd1 now1 s).1.current_time
        ≤ (Effect.tick upd2 now2 (Effect.tick upd1 now1 s).1).1.current_time := by
  simp only [Effect.tick, hrun, if_true, Option.getD_some]
  refine ⟨trivial, ?_⟩
  linarith

/-- Witness for claim C2 (amended): concrete non-decreasing readings 3 then
7 on a running effect give non-decreasing elapsed time. -/
theorem elapsed_time_witness :
    (Effect.tick updNone 3 sRun).1.current_time
      ≤ (Effect.tick updNone 7 (Effect.tick updNone 3 sRun).1).1.current_time :=
  (elapsed_time_delta_monotone updNone updNone 3 7 sRun rfl (by norm_num)).2

/-- Embedding of `Effect.set_pixel`: guarded by `0 <= index < led_count`,
silently ignored otherwise.  The index is a Python int (ℤ); the stored
channels are cast to uint8 by the NumPy assignment. -/
def Effect.set_pixel (s : EffectState) (index : ℤ) (r g b : ℕ) : EffectState :=
  if 0 ≤ index ∧ index < (s.led_count : ℤ) then
    { s with pixels := s.pixels.set index.toNat (r % 256, g % 256, b % 256) }
  else s

/-- Claim C9: `set_pixel` with an out-of-range index (negative or at least
`led_count`) leaves the state — in particular the buffer — entirely
unchanged and raises no error; with an in-range index it sets exactly
pixel `index` and leaves every other position of the buffer as it was. -/
theorem set_pixel_exact (s : EffectState) (index : ℤ) (r g b : ℕ) :
    (¬ (0 ≤ index ∧ index < (s.led_count : ℤ)) → Effect.set_pixel s index r g b = s)
    ∧ (0 ≤ index → index < (s.led_count : ℤ) → s.pixels.length = s.led_count →
        ∀ j : ℕ, (Effect.set_pixel s index r g b).pixels.get? j
          = if (j : ℤ) = index then some (r % 256, g % 256, b % 256)
            else s.pixels.get? j) := by
  constructor
  · intro h
    simp [Effect.set_pixel, h]
  · intro h0 h1 hlen j
    have hidx : index.toNat < s.pixels.length := by omega
    have hc : (0 ≤ index ∧ index < (s.led_count : ℤ)) := ⟨h0, h1⟩
    simp only [Effect.set_pixel, if_pos hc]
    rw [List.get?_set_of_lt' _ _ hidx]
    by_cases hj : (j : ℤ) = index
    · rw [if_pos (by omega), if_pos hj]
    · rw [if_neg (by omega), if_neg hj]

/-- A stopped two-LED effect with a black buffer for instantiating the
buffer theorems. -/
def sPix : EffectState :=
  { led_count := 2, fps := 30, frame_time := 1/30, tree := none, start_time := none,
    current_time := 0, frame_count := 0, running := false, pixels := [(0,0,0),(0,0,0)] }

/-- Witness for claim C9: index 5 is ignored on a 2-LED buffer; index 1 is
written and index 0 is untouched. -/
theorem set_pixel_exact_witness :
    (Effect.set_pixel sPix 5 9 9 9 = sPix)
    ∧ (Effect.set_pixel sPix 1 9 8 7).pixels.get? 1 = some (9, 8, 7)
    ∧ (Effect.set_pixel sPix 1 9 8 7).pixels.get? 0 = sPix.pixels.get? 0 := by
  refine ⟨(set_pixel_exact sPix 5 9 9 9).1 (by norm_num [sPix]), ?_, ?_⟩
  · have h := (set_pixel_exact sPix 1 9 8 7).2 (by norm_num) (by norm_num [sPix])
      (by norm_num [sPix]) 1
    rw [h]
    norm_num
  · have h := (set_pixel_exact sPix 1 9 8 7).2 (by norm_num) (by norm_num [sPix])
      (by norm_num [sPix]) 0
    rw [h]
    norm_num

/-- NumPy `astype(np.uint8)` applied to one float (rational) entry:
C truncation toward zero, wrapped into the uint8 range.  (The claims only
exercise it on values already inside `[0, 256)`.) -/
def u8cast (q : ℚ) : ℕ := ((pyInt q) % 256).toNat

/-- One channel of `Effect.fade_to_black`: multiply by `(1 - amount)` and
cast back to uint8. -/
def fade_channel (amount : ℚ) (c : ℕ) : ℕ := u8cast ((c : ℚ) * (1 - amount))

/-- Embedding of `Effect.fade_to_black`: every channel of every pixel is
scaled by `(1 - amount)` and truncated back to uint8. -/
def Effect.fade_to_black (s : EffectState) (amount : ℚ) : EffectState :=
  { s with pixels := s.pixels.map (fun p =>
      (fade_channel amount p.1, fade_channel amount p.2.1, fade_channel amount p.2.2)) }

lemma fade_channel_eq (a : ℚ) (ha0 : 0 ≤ a) (ha1 : a ≤ 1) (c : ℕ) (hc : c ≤ 255) :
    fade_channel a c = (⌊(c : ℚ) * (1 - a)⌋).toNat
    ∧ fade_channel a c ≤ c ∧ fade_channel a c ≤ 255 := by
  have hq0 : 0 ≤ (c : ℚ) * (1 - a) := mul_nonneg (Nat.cast_nonneg c) (by linarith)
  have hqc : (c : ℚ) * (1 - a) ≤ (c : ℚ) := by nlinarith [Nat.cast_nonneg (α := ℚ) c]
  have hfl0 : 0 ≤ ⌊(c : ℚ) * (1 - a)⌋ := Int.floor_nonneg.2 hq0
  have hflc : ⌊(c : ℚ) * (1 - a)⌋ ≤ (c : ℤ) := by
    have h1 := Int.floor_le_floor hqc
    rwa [Int.floor_natCast] at h1
  have hpy : pyInt ((c : ℚ) * (1 - a)) = ⌊(c : ℚ) * (1 - a)⌋ := by
    unfold pyInt
    rw [if_neg (not_lt.2 hq0), ratFloor_eq]
  have hmod : ⌊(c : ℚ) * (1 - a)⌋ % 256 = ⌊(c : ℚ) * (1 - a)⌋ :=
    Int.emod_eq_of_lt hfl0 (by omega)
  unfold fade_channel u8cast
  rw [hpy, hmod]
  refine ⟨rfl, ?_, ?_⟩ <;> omega

lemma fade_channel_one (c : ℕ) : fade_channel 1 c = 0 := by
  unfold fade_channel u8cast pyInt
  norm_num [ratFloor_eq]

lemma fade_channel_zero (c : ℕ) (hc : c ≤ 255) : fade_channel 0 c = c := by
  unfold fade_channel u8cast
  rw [show ((c : ℚ) * (1 - 0)) = (((c : ℤ) : ℚ)) by push_cast; ring, pyInt_intCast]
  omega

/-- Claim C10: for a fade amount in `[0,1]` and a buffer of genuine uint8
values (≤ 255 per channel), `fade_to_black` maps every channel `c` to the
integer truncation of `c * (1 - amount)`; consequently no channel
increases and every channel stays within `[0,255]`; `fade_to_black 1`
zeroes the buffer, and `fade_to_black 0` leaves it exactly unchanged (a
decrease of at most the truncation, which here is zero since channels are
integers). -/
theorem fade_to_black_truncates (s : EffectState) (a : ℚ) (ha0 : 0 ≤ a) (ha1 : a ≤ 1)
    (hpx : ∀ p ∈ s.pixels, p.1 ≤ 255 ∧ p.2.1 ≤ 255 ∧ p.2.2 ≤ 255) :
    (Effect.fade_to_black s a).pixels
        = s.pixels.map (fun p => ((⌊(p.1 : ℚ) * (1 - a)⌋).toNat,
            (⌊(p.2.1 : ℚ) * (1 - a)⌋).toNat, (⌊(p.2.2 : ℚ) * (1 - a)⌋).toNat))
    ∧ (∀ j p q, s.pixels.get? j = some p →
          (Effect.fade_to_black s a).pixels.get? j = some q →
          q.1 ≤ p.1 ∧ q.2.1 ≤ p.2.1 ∧ q.2.2 ≤ p.2.2
            ∧ q.1 ≤ 255 ∧ q.2.1 ≤ 255 ∧ q.2.2 ≤ 255)
    ∧ (a = 1 → ∀ q ∈ (Effect.fade_to_black s a).pixels, q = (0, 0, 0))
    ∧ (a = 0 → (Effect.fade_to_black s a).pixels = s.pixels) := by
  refine ⟨?_, ?_, ?_, ?_⟩
  · show s.pixels.map _ = s.pixels.map _
    refine List.map_congr_left ?_
    intro p hp
    obtain ⟨h1, h2, h3⟩ := hpx p hp
    rw [(fade_channel_eq a ha0 ha1 p.1 h1).1, (fade_channel_eq a ha0 ha1 p.2.1 h2).1,
        (fade_channel_eq a ha0 ha1 p.2.2 h3).1]
  · intro j p q hp hq
    have hmap : (Effect.fade_to_black s a).pixels.get? j
        = (s.pixels.get? j).map (fun p =>
            (fade_channel a p.1, fade_channel a p.2.1, fade_channel a p.2.2)) :=
      List.get?_map _ _ _
    rw [hmap, hp] at hq
    have hq' : q = (fade_channel a p.1, fade_channel a p.2.1, fade_channel a p.2.2) := by
      simpa using hq.symm
    have hmem : p ∈ s.pixels := List.get?_mem hp
    obtain ⟨h1, h2, h3⟩ := hpx p hmem
    rw [hq']
    exact ⟨(fade_channel_eq a ha0 ha1 p.1 h1).2.1, (fade_channel_eq a ha0 ha1 p.2.1 h2).2.1,
      (fade_channel_eq a ha0 ha1 p.2.2 h3).2.1, (fade_channel_eq a ha0 ha1 p.1 h1).2.2,
      (fade_channel_eq a ha0 ha1 p.2.1 h2).2.2, (fade_channel_eq a ha0 ha1 p.2.2 h3).2.2⟩
  · intro ha q hq
    subst ha
    rcases List.mem_map.1 hq with ⟨p, hp, rfl⟩
    rw [fade_channel_one, fade_channel_one, fade_channel_one]
  · intro ha
    subst ha
    show s.pixels.map _ = s.pixels
    have hid : ∀ p ∈ s.pixels,
        (fade_channel 0 p.1, fade_channel 0 p.2.1, fade_channel 0 p.2.2) = p := by
      intro p hp
      obtain ⟨h1, h2, h3⟩ := hpx p hp
      rw [fade_channel_zero p.1 h1, fade_channel_zero p.2.1 h2, fade_channel_zero p.2.2 h3]
    rw [List.map_congr_left hid]
    simp

/-- A one-LED effect holding the pixel `(255, 10, 0)`. -/
def sFade : EffectState :=
  { led_count := 1, fps := 30, frame_time := 1/30, tree := none, start_time := none,
    current_time := 0, frame_count := 0, running := false, pixels := [(255, 10, 0)] }

/-- Witness for claim C10: fading `(255, 10, 0)` by one half yields
`(127, 5, 0)` — each channel truncated, none increased, all within
range. -/
theorem fade_to_black_witness :
    (Effect.fade_to_black sFade (1/2)).pixels = [(127, 5, 0)] := by
  have h := fade_to_black_truncates sFade (1/2) (by norm_num) (by norm_num)
    (by intro p hp; simp [sFade] at hp; simp [hp])
  rw [h.1]
  norm_num [sFade]
  omega

/-! ## Spatially aware effect constructors (`src/effects/*.py`) -/

/-- The error taxonomy of the spec's §7 relevant here: a spatial animation
constructed without a model (the code raises `ValueError`). -/
inductive EffectError where
  | MissingGeometry
deriving DecidableEq

/-- Embedding of `HeightGradientEffect.__init__`: fails when no tree model
is supplied, otherwise precomputes the normalized heights. -/
structure HeightGradientEffect where
  base : EffectState
  colors : Option (List RGBz)
  animated : Bool
  speed : ℚ
  heights : List ℚ

def HeightGradientEffect.construct (led_count fps : ℕ) (tm : Option TreeModel)
    (colors : Option (List RGBz)) (animated : Bool) (speed : ℚ) :
    Except EffectError HeightGradientEffect :=
  match tm with
  | none => .error .MissingGeometry
  | some m => .ok { base := Effect.base_init led_count fps tm, colors := colors,
                    animated := animated, speed := speed,
                    heights := get_height_normalized m }

/-- Embedding of `RisingWaveEffect.__init__`. -/
structure RisingWaveEffect where
  base : EffectState
  speed : ℚ
  wave_height : ℚ
  hue : ℚ
  heights : List ℚ

def RisingWaveEffect.construct (led_count fps : ℕ) (tm : Option TreeModel)
    (speed wave_height hue : ℚ) : Except EffectError RisingWaveEffect :=
  match tm with
  | none => .error .MissingGeometry
  | some m => .ok { base := Effect.base_init led_count fps tm, speed := speed,
                    wave_height := wave_height, hue := hue,
                    heights := get_height_normalized m }

/-- The planar offsets from the model's center that
`TreeModel.get_angle_from_center` feeds into `arctan2`.  `arctan2` itself
is transcendental, so the embedding stores its (rational) inputs; no
claim inspects the resulting angles. -/
def get_angle_inputs (m : TreeModel) : List (ℚ × ℚ) :=
  let ctr := m.center.getD (0, 0, 0)
  m.coordinates.map (fun c => (c.1 - ctr.1, c.2.1 - ctr.2.1))

/-- Embedding of `SpiralEffect.__init__`. -/
structure SpiralEffect where
  base : EffectState
  speed : ℚ
  rotations : ℚ
  width : ℚ
  heights : List ℚ
  angle_inputs : List (ℚ × ℚ)

def SpiralEffect.construct (led_count fps : ℕ) (tm : Option TreeModel)
    (speed rotations width : ℚ) : Except EffectError SpiralEffect :=
  match tm with
  | none => .error .MissingGeometry
  | some m => .ok { base := Effect.base_init led_count fps tm, speed := speed,
                    rotations := rotations, width := width,
                    heights := get_height_normalized m,
                    angle_inputs := get_angle_inputs m }

/-- Embedding of `RotatingPlaneEffect.__init__`. -/
structure RotatingPlaneEffect where
  base : EffectState
  speed : ℚ
  thickness : ℚ
  angle_inputs : List (ℚ × ℚ)
  heights : List ℚ

def RotatingPlaneEffect.construct (led_count fps : ℕ) (tm : Option TreeModel)
    (speed thickness : ℚ) : Except EffectError RotatingPlaneEffect :=
  match tm with
  | none => .error .MissingGeometry
  | some m => .ok { base := Effect.base_init led_count fps tm, speed := speed,
                    thickness := thickness, angle_inputs := get_angle_inputs m,
                    heights := get_height_normalized m }

/-- The square of `SpherePulseEffect._calculate_max_distance` (the
bounding-box diagonal).  The code takes `np.sqrt` of this sum, which is
irrational in general; the embedding keeps the square, and no claim
inspects the value. -/
def max_distance_sq (m : TreeModel) : ℚ :=
  match m.bounds with
  | none => 0
  | some b => (b.1.2 - b.1.1)^2 + (b.2.1.2 - b.2.1.1)^2 + (b.2.2.2 - b.2.2.1)^2

/-- Embedding of `SpherePulseEffect.__init__`; `origin_indices` supplies
the outcomes of the `np.random.randint` draws for the pulse origins. -/
structure SpherePulseEffect where
  base : EffectState
  speed : ℚ
  pulse_width : ℚ
  num_pulses : ℕ
  max_dist_sq : ℚ
  pulse_origins : List Coord

def SpherePulseEffect.construct (led_count fps : ℕ) (tm : Option TreeModel)
    (speed pulse_width : ℚ) (num_pulses : ℕ) (origin_indices : List ℕ) :
    Except EffectError SpherePulseEffect :=
  match tm with
  | none => .error .MissingGeometry
  | some m => .ok { base := Effect.base_init led_count fps tm, speed := speed,
                    pulse_width := pulse_width, num_pulses := num_pulses,
                    max_dist_sq := max_distance_sq m,
                    pulse_origins := origin_indices.map
                      (fun i => m.coordinates.getD i (0, 0, 0)) }

/-- Claim C6: each of the five spatially aware animations
(HeightGradient, RisingWave, Spiral, RotatingPlane, SpherePulse) fails
construction with `MissingGeometry` when given no spatial model, and
construction with any non-null model succeeds without that error, for all
parameter values. -/
theorem spatial_effects_require_geometry (led_count fps : ℕ)
    (colors : Option (List RGBz)) (animated : Bool)
    (speed wave_height hue rotations width thickness pulse_width : ℚ)
    (num_pulses : ℕ) (origin_indices : List ℕ) :
    (HeightGradientEffect.construct led_count fps none colors animated speed
        = .error .MissingGeometry
      ∧ ∀ m : TreeModel, ∃ e, HeightGradientEffect.construct led_count fps (some m)
          colors animated speed = .ok e)
    ∧ (RisingWaveEffect.construct led_count fps none speed wave_height hue
        = .error .MissingGeometry
      ∧ ∀ m : TreeModel, ∃ e, RisingWaveEffect.construct led_count fps (some m)
          speed wave_height hue = .ok e)
    ∧ (SpiralEffect.construct led_count fps none speed rotations width
        = .error .MissingGeometry
      ∧ ∀ m : TreeModel, ∃ e, SpiralEffect.construct led_count fps (some m)
          speed rotations width = .ok e)
    ∧ (RotatingPlaneEffect.construct led_count fps none speed thickness
        = .error .MissingGeometry
      ∧ ∀ m : TreeModel, ∃ e, RotatingPlaneEffect.construct led_count fps (some m)
          speed thickness = .ok e)
    ∧ (SpherePulseEffect.construct led_count fps none speed pulse_width num_pulses
          origin_indices = .error .MissingGeometry
      ∧ ∀ m : TreeModel, ∃ e, SpherePulseEffect.construct led_count fps (some m)
          speed pulse_width num_pulses origin_indices = .ok e) :=
  ⟨⟨rfl, fun _ => ⟨_, rfl⟩⟩, ⟨rfl, fun _ => ⟨_, rfl⟩⟩, ⟨rfl, fun _ => ⟨_, rfl⟩⟩,
   ⟨rfl, fun _ => ⟨_, rfl⟩⟩, ⟨rfl, fun _ => ⟨_, rfl⟩⟩⟩

end WledTree
